import Mathlib

/-!
Verification of the share.mk core subsystems against their Go sources.

The development shallowly embeds the relevant parts of the repository:

* `Ratelimit` — `internal/ratelimit/limiter.go`: the admission controller.
  A Go buffered channel used as a semaphore is represented by the number of
  items it currently holds; a non-blocking send succeeds exactly when that
  number is below the channel capacity, and a non-blocking receive succeeds
  exactly when it is positive.  The per-IP channel map is represented as a
  total function defaulting to 0, which matches creation-on-demand of an
  empty channel in `ipChan`.

* `Cfg` — `internal/config/config.go`: configuration loading.  The process
  environment is a function from variable names to values, with the empty
  string denoting an unset variable exactly as `os.Getenv` reports it; a
  `panic` in the Go loader is an `Except.error` here.

* `Expiry` — `internal/expiry/worker.go`: the expiry sweeper.  A sweep pass
  consumes a paginated listing; external effects (page fetch, tag fetch,
  batch delete) are oracles recorded in the listing data.  The external
  `time.Parse(time.RFC3339, ·)` is a parameter `parseTs` of the pass, and
  `time.Time.After` on instants is strict integer comparison.

* `Hooks` — `internal/hooks/hooks.go`: TTL-class validation on the tus
  upload path.

* `Mcpserver` — `internal/mcpserver/server.go`: the MCP tool handlers,
  ownership-token comparison and object-key derivation.  Byte slices are
  modeled at character granularity (UTF-8 encoding is injective, so the
  equality semantics of `subtle.ConstantTimeCompare` is preserved), and an
  RFC3339 timestamp written to a tag is modeled by the instant it denotes.
-/

namespace Share

/-! ## Definitions: admission controller (`internal/ratelimit/limiter.go`) -/

namespace Ratelimit

/-- State of `ratelimit.Limiter`.  `globalSem` is the number of tokens
currently buffered in the `globalSem` channel (capacity `globalMax`);
`perIP k` is the number buffered in the per-IP channel for key `k`
(capacity `perIPMax`).  A key never seen corresponds to a channel that
`ipChan` would create empty, hence the total-function representation with
default 0. -/
structure Limiter where
  globalMax : Nat
  perIPMax : Nat
  globalSem : Nat
  perIP : String → Nat

/-- `ratelimit.New`: fresh limiter with both semaphores empty. -/
def New (globalMax perIPMax : Nat) : Limiter :=
  { globalMax := globalMax, perIPMax := perIPMax, globalSem := 0, perIP := fun _ => 0 }

/-- `(*Limiter).acquire`: non-blocking send on the global channel, then
non-blocking send on the per-IP channel; on per-IP failure the global
token just sent is received back (rollback). -/
def acquire (l : Limiter) (ip : String) : Limiter × Bool :=
  if l.globalSem < l.globalMax then
    let l1 : Limiter := { l with globalSem := l.globalSem + 1 }
    if l1.perIP ip < l1.perIPMax then
      ({ l1 with perIP := Function.update l1.perIP ip (l1.perIP ip + 1) }, true)
    else
      ({ l1 with globalSem := l1.globalSem - 1 }, false)
  else
    (l, false)

/-- `(*Limiter).release`: non-blocking receive on the per-IP channel, then
non-blocking receive on the global channel; each receive is a no-op when
the channel is empty. -/
def release (l : Limiter) (ip : String) : Limiter :=
  let l1 : Limiter :=
    if 0 < l.perIP ip then { l with perIP := Function.update l.perIP ip (l.perIP ip - 1) } else l
  if 0 < l1.globalSem then { l1 with globalSem := l1.globalSem - 1 } else l1

/-- One call against the limiter, as issued by the middleware. -/
inductive Op where
  | acq (ip : String)
  | rel (ip : String)

/-- Bookkeeping carried alongside a trace: successful acquires and
effective releases (receives that actually removed a token), globally and
per key. -/
structure Stats where
  succAcqG : Nat
  effRelG : Nat
  succAcq : String → Nat
  effRel : String → Nat

/-- Empty bookkeeping. -/
def Stats.init : Stats :=
  { succAcqG := 0, effRelG := 0, succAcq := fun _ => 0, effRel := fun _ => 0 }

/-- One step of a call trace: performs the call on the limiter state and
updates the bookkeeping.  A release is effective on a pool exactly when
that pool held a token at call time, mirroring the two independent
non-blocking receives in `release`. -/
def step (s : Limiter × Stats) (op : Op) : Limiter × Stats :=
  match op with
  | .acq ip =>
    let r := acquire s.1 ip
    if r.2 then
      (r.1, { s.2 with
                succAcqG := s.2.succAcqG + 1
                succAcq := Function.update s.2.succAcq ip (s.2.succAcq ip + 1) })
    else
      (r.1, s.2)
  | .rel ip =>
    let effIP := 0 < s.1.perIP ip
    let effG := 0 < s.1.globalSem
    (release s.1 ip,
     { s.2 with
         effRelG := if effG then s.2.effRelG + 1 else s.2.effRelG
         effRel := if effIP then Function.update s.2.effRel ip (s.2.effRel ip + 1)
                   else s.2.effRel })

/-- A whole trace of calls against a limiter, with bookkeeping. -/
def run (l : Limiter) (ops : List Op) : Limiter × Stats :=
  ops.foldl step (l, Stats.init)

end Ratelimit

/-! ## Definitions: Go map helpers shared by the embeddings

A Go `map[string]string` is an association list here: `mapGet` is map
indexing (missing key reads as the empty string, as in Go), `mapSet` is
map assignment. -/

def mapGet (m : List (String × String)) (k : String) : String :=
  match m.lookup k with
  | some v => v
  | none => ""

def mapSet (m : List (String × String)) (k v : String) : List (String × String) :=
  (k, v) :: m.filter (fun p => !(p.1 == k))

/-! ## Definitions: configuration (`internal/config/config.go`) -/

namespace Cfg

/-- `config.Config`.  The Go field `S3ObjectPrefix` is named `s3ObjectPfx`
here; `int`/`int64` fields are `Int`. -/
structure Config where
  s3Bucket : String
  s3Region : String
  s3Endpoint : String
  s3AccessKey : String
  s3SecretKey : String
  s3ObjectPfx : String
  tusBasePath : String
  tusMaxSize : Int
  serverAddr : String
  publicURL : String
  rateLimitGlobal : Int
  rateLimitPerIP : Int
  logLevel : String
deriving DecidableEq

/-- `config.mustEnv`: a panic on a missing variable becomes an error. -/
def mustEnv (env : String → String) (key : String) : Except String String :=
  if env key = "" then .error ("required environment variable " ++ key ++ " is not set")
  else .ok (env key)

/-- `config.getEnvOrDefault`. -/
def getEnvOrDefault (env : String → String) (key dflt : String) : String :=
  if env key = "" then dflt else env key

/-- `config.mustEnvInt` and `config.mustEnvInt64` (both integer-valued
here); `strconv` parse failure, a panic in Go, becomes an error. -/
def mustEnvInt (env : String → String) (key : String) (dflt : Int) : Except String Int :=
  if env key = "" then .ok dflt
  else
    match (env key).toInt? with
    | some n => .ok n
    | none => .error ("invalid value for " ++ key)

/-- `config.Load` over an explicit process environment (`os.Getenv` is the
function `env`; an unset variable reads as the empty string). -/
def Load (env : String → String) : Except String Config := do
  let bucket ← mustEnv env "S3_BUCKET"
  let region ← mustEnv env "S3_REGION"
  let endp ← mustEnv env "S3_ENDPOINT"
  let accessKey ← mustEnv env "S3_ACCESS_KEY"
  let secretKey ← mustEnv env "S3_SECRET_KEY"
  let maxSize ← mustEnvInt env "TUS_MAX_SIZE" 10737418240
  let rlGlobal ← mustEnvInt env "RATE_LIMIT_GLOBAL" 50
  let rlPerIP ← mustEnvInt env "RATE_LIMIT_PER_IP" 5
  pure { s3Bucket := bucket, s3Region := region, s3Endpoint := endp,
         s3AccessKey := accessKey, s3SecretKey := secretKey,
         s3ObjectPfx := getEnvOrDefault env "S3_OBJECT_PREFIX" "uploads/",
         tusBasePath := getEnvOrDefault env "TUS_BASE_PATH" "/files/",
         tusMaxSize := maxSize,
         serverAddr := getEnvOrDefault env "SERVER_ADDR" ":8080",
         publicURL := getEnvOrDefault env "PUBLIC_URL" "http://localhost:8080",
         rateLimitGlobal := rlGlobal, rateLimitPerIP := rlPerIP,
         logLevel := getEnvOrDefault env "LOG_LEVEL" "info" }

end Cfg

/-! ## Definitions: expiry sweeper (`internal/expiry/worker.go`)

The S3 listing consumed by one `runOnce` pass is a list of pages; a `none`
page is a `paginator.NextPage` error.  Within a page, each object carries
the outcome of its `GetObjectTagging` call (`none` = error) and the page
carries the outcome of its `DeleteObjects` batch.  `time.Parse` with the
RFC3339 layout is external and enters as the `parseTs` parameter; an
instant is an integer, and `now.After(t)` is `t < now`. -/

namespace Expiry

/-- `expiry.Worker`: interval is a `time.Duration` in nanoseconds. -/
structure Worker where
  cfg : Cfg.Config
  interval : Int

/-- `expiry.New`: the interval is the constant `10 * time.Minute`. -/
def New (cfg : Cfg.Config) : Worker :=
  { cfg := cfg, interval := 600000000000 }

/-- One object returned by a listing page, with its tag-fetch outcome. -/
structure SweepObject where
  key : String
  tagging : Option (List (String × String))
deriving DecidableEq

/-- One listing page, with the outcome of its delete batch. -/
structure SweepPage where
  contents : List SweepObject
  deleteOk : Bool
deriving DecidableEq

/-- `expiry.findTag`. -/
def findTag (tags : List (String × String)) (key : String) : Option String :=
  match tags with
  | [] => none
  | t :: rest => if t.1 = key then some t.2 else findTag rest key

/-- `strings.HasSuffix` (byte suffix; `.info` and `.part` are ASCII, so
character granularity coincides with byte granularity). -/
def hasSuffix (s sfx : String) : Bool :=
  sfx.data.isSuffixOf s.data

/-- The primary-data filter of the scan loop: keys carrying the side
channel suffix `.info` or the multipart suffix `.part` are skipped. -/
def isDataKey (key : String) : Bool :=
  !(hasSuffix key ".info") && !(hasSuffix key ".part")

/-- The per-object body of the scan loop: the keys this object contributes
to the delete batch of its page. -/
def markObject (parseTs : String → Option Int) (now : Int) (o : SweepObject) : List String :=
  if !(isDataKey o.key) then []
  else
    match o.tagging with
    | none => []
    | some tags =>
      match findTag tags "expires-at" with
      | none => []
      | some v =>
        match parseTs v with
        | none => []
        | some t => if t < now then [o.key, o.key ++ ".info"] else []

/-- Delete-batch accumulation over the objects of one page. -/
def marksOf (parseTs : String → Option Int) (now : Int) : List SweepObject → List String
  | [] => []
  | o :: rest => markObject parseTs now o ++ marksOf parseTs now rest

/-- The keys a page contributes to its delete batch. -/
def pageMarks (parseTs : String → Option Int) (now : Int) (p : SweepPage) : List String :=
  marksOf parseTs now p.contents

/-- `runOnce`, projected to the keys actually deleted: a listing-page
error returns from the pass; an empty batch issues no delete call; a
failed delete batch deletes nothing and the pass continues. -/
def runOnce (parseTs : String → Option Int) (now : Int) :
    List (Option SweepPage) → List String
  | [] => []
  | none :: _ => []
  | some p :: rest =>
    let toDelete := pageMarks parseTs now p
    (if toDelete.isEmpty then [] else if p.deleteOk then toDelete else [])
      ++ runOnce parseTs now rest

/-- `runOnce`, projected to the keys marked for deletion (the delete
batches as assembled, before the batch call outcome). -/
def runOnceMarked (parseTs : String → Option Int) (now : Int) :
    List (Option SweepPage) → List String
  | [] => []
  | none :: _ => []
  | some p :: rest => pageMarks parseTs now p ++ runOnceMarked parseTs now rest

/-- An object that the scan loop skips without marking: its tag fetch
succeeded and it either has no `expires-at` tag or the tag value does not
parse. -/
def noDeadline (parseTs : String → Option Int) (o : SweepObject) : Bool :=
  match o.tagging with
  | none => false
  | some tags =>
    match findTag tags "expires-at" with
    | none => true
    | some v => (parseTs v).isNone

/-- Every object with key `k` among the given objects lacks a parsable
deadline. -/
def skipsObjects (parseTs : String → Option Int) (k : String) :
    List SweepObject → Bool
  | [] => true
  | o :: rest => (o.key != k || noDeadline parseTs o) && skipsObjects parseTs k rest

/-- Every occurrence of key `k` in the listing is an object without a
parsable deadline. -/
def skipsKey (parseTs : String → Option Int) (k : String) :
    List (Option SweepPage) → Bool
  | [] => true
  | none :: rest => skipsKey parseTs k rest
  | some p :: rest => skipsObjects parseTs k p.contents && skipsKey parseTs k rest

/-- A stand-in for the external `time.Parse(time.RFC3339, v)` on the one
timestamp used by the concrete test inputs below, mapping it to the
instant it denotes (as a Unix second count). -/
def tsStub : String → Option Int :=
  fun v => if v = "2026-01-01T00:00:00Z" then some 1767225600 else none

/-! Concrete listing fixtures used by the closed instances below. -/

/-- A data object tagged with the stub timestamp. -/
def objExpW : SweepObject :=
  { key := "uploads/a", tagging := some [("expires-at", "2026-01-01T00:00:00Z")] }

/-- A page holding the tagged object, with a delete batch that succeeds. -/
def pageExpW : SweepPage :=
  { contents := [objExpW], deleteOk := true }

/-- A page whose only object has no `expires-at` tag. -/
def pageNoTagW : SweepPage :=
  { contents := [{ key := "uploads/b", tagging := some [("other", "x")] }],
    deleteOk := true }

/-- A page whose only object has an unparsable `expires-at` tag. -/
def pageBadTagW : SweepPage :=
  { contents := [{ key := "uploads/b", tagging := some [("expires-at", "not-a-time")] }],
    deleteOk := true }

end Expiry

/-! ## Definitions: creation hooks (`internal/hooks/hooks.go`) -/

namespace Hooks

/-- `hooks.validExpiries`: durations in nanoseconds (`time.Duration`). -/
def validExpiries : List (String × Int) :=
  [("1h", 3600000000000), ("6h", 21600000000000), ("24h", 86400000000000),
   ("7d", 604800000000000), ("30d", 2592000000000000)]

/-- Outcome of `hooks.PreCreate`: an empty `expires-in` gets the default
injected into the metadata changes; an unknown value is rejected with a
client error (the JSON envelope of the body is elided, keeping the
message); a known value passes through. -/
inductive PreCreateResult where
  | defaultInjected (meta : List (String × String))
  | accepted
  | rejected (status : Nat) (errMsg : String)
deriving DecidableEq

/-- `hooks.PreCreate`, as a function of the upload metadata map. -/
def PreCreate (meta : List (String × String)) : PreCreateResult :=
  let expiry := mapGet meta "expires-in"
  if expiry = "" then
    .defaultInjected (mapSet meta "expires-in" "24h")
  else if (validExpiries.lookup expiry).isNone then
    .rejected 400 ("invalid expires-in " ++ expiry ++ "; valid values: 1h, 6h, 24h, 7d, 30d")
  else
    .accepted

end Hooks

/-! ## Definitions: MCP server (`internal/mcpserver/server.go`)

The store visible to the tool handlers maps keys to blobs; a blob is
either a tusd-compatible info file, raw uploaded data, or bytes that do
not decode as an info file.  Object tags live beside the blobs; since the
only tag ever written is an RFC3339 timestamp, its value is modeled as the
instant it denotes.  External effects (base64 decoding, UUID and token
generation, S3 call outcomes) are parameters of the handlers. -/

namespace Mcpserver

/-- `mcpserver.validExpiries` (same table as the hooks package). -/
def validExpiries : List (String × Int) :=
  [("1h", 3600000000000), ("6h", 21600000000000), ("24h", 86400000000000),
   ("7d", 604800000000000), ("30d", 2592000000000000)]

/-- The subset of `mcpserver.fileInfo` the handlers read and write. -/
structure FileInfo where
  id : String
  size : Int
  offset : Int
  metaData : List (String × String)
  storage : List (String × String)
deriving DecidableEq

/-- A stored blob.  JSON decoding of a body into `fileInfo` is modeled by
the blob kind: only an `infoFile` decodes. -/
inductive Blob where
  | corrupt
  | infoFile (info : FileInfo)
  | dataFile (content : List Nat) (contentType : String)
deriving DecidableEq

/-- The S3 bucket as the handlers see it. -/
structure S3State where
  objects : List (String × Blob)
  tags : List (String × List (String × Int))
deriving DecidableEq

/-- `GetObject` (`none` = error, including not-found). -/
def getObject (st : S3State) (key : String) : Option Blob :=
  st.objects.lookup key

/-- `PutObject`. -/
def putObject (st : S3State) (key : String) (b : Blob) : S3State :=
  { st with objects := (key, b) :: st.objects.filter (fun p => !(p.1 == key)) }

/-- `PutObjectTagging`. -/
def putTags (st : S3State) (key : String) (ts : List (String × Int)) : S3State :=
  { st with tags := (key, ts) :: st.tags.filter (fun p => !(p.1 == key)) }

/-- Deletion of a single key. -/
def deleteObject (st : S3State) (key : String) : S3State :=
  { st with objects := st.objects.filter (fun p => !(p.1 == key)),
            tags := st.tags.filter (fun p => !(p.1 == key)) }

/-- `DeleteObjects` over a batch of keys. -/
def deleteObjects (st : S3State) (keys : List String) : S3State :=
  keys.foldl deleteObject st

/-- A value in a tool-result JSON payload. -/
inductive PVal where
  | s (v : String)
  | n (v : Int)
  | b (v : Bool)
deriving DecidableEq

/-- A tool call result: `mcp.NewToolResultError` or the JSON payload of
`toolResultJSON`. -/
inductive ToolResult where
  | err (msg : String)
  | ok (payload : List (String × PVal))
deriving DecidableEq

/-- The characters of a Go string, as the code points UTF-8 encodes.
UTF-8 encoding is injective, so list equality here coincides with byte
slice equality in Go. -/
def toBytes (s : String) : List Nat :=
  s.data.map Char.toNat

/-- The accumulation loop of `subtle.ConstantTimeCompare`: the bitwise or
of the bytewise xors. -/
def ctcFold : List Nat → List Nat → Nat
  | x :: xs, y :: ys => (x ^^^ y) ||| ctcFold xs ys
  | _, _ => 0

/-- `subtle.ConstantTimeCompare`: 0 on a length mismatch, otherwise 1
exactly when the accumulated xor is 0. -/
def constantTimeCompare (x y : List Nat) : Nat :=
  if x.length = y.length then (if ctcFold x y = 0 then 1 else 0) else 0

/-- `mcpserver.tokenMatches`. -/
def tokenMatches (stored provided : String) : Bool :=
  if stored = "" ∨ provided = "" then false
  else constantTimeCompare (toBytes stored) (toBytes provided) == 1

/-- `strings.IndexByte(id, b)` for the plus byte: index of the first
occurrence.  The plus sign is ASCII, so its first byte occurrence is its
first character occurrence. -/
def indexOfPlus : List Char → Option Nat
  | [] => none
  | c :: rest => if c == '+' then some 0 else (indexOfPlus rest).map (· + 1)

/-- `(*MCPServer).objectKey`: the byte-slice cut at the first plus. -/
def objectKey (pfx : String) (id : String) : String :=
  match indexOfPlus id.data with
  | some i => pfx ++ String.mk (id.data.take i)
  | none => pfx ++ id

/-- `strings.TrimRight(s, slash)`: drop every trailing slash. -/
def trimRightSlash (s : String) : String :=
  String.mk (s.data.reverse.dropWhile (· == '/')).reverse

/-- The stored management token: `info.MetaData` indexed at `mgmt-token`
(missing reads as the empty string). -/
def mgmtTokenOf (info : FileInfo) : String :=
  mapGet info.metaData "mgmt-token"

/-- `(*MCPServer).handleGetFileInfo`.  `tagReadOk` is the outcome of the
`GetObjectTagging` call, whose error the handler ignores. -/
def handleGetFileInfo (cfg : Cfg.Config) (tagReadOk : Bool) (st : S3State)
    (id tok : String) : ToolResult :=
  if id = "" then .err "file_id is required"
  else
    let key := objectKey cfg.s3ObjectPfx id
    match getObject st (key ++ ".info") with
    | none => .err "invalid file_id or management_token"
    | some .corrupt => .err "invalid file_id or management_token"
    | some (.dataFile _ _) => .err "invalid file_id or management_token"
    | some (.infoFile info) =>
      if !(tokenMatches (mgmtTokenOf info) tok) then
        .err "invalid file_id or management_token"
      else
        let expiresAt : Option Int :=
          if tagReadOk then ((st.tags.lookup key).getD []).lookup "expires-at" else none
        .ok [("file_id", .s info.id),
             ("filename", .s (mapGet info.metaData "filename")),
             ("content_type", .s (mapGet info.metaData "filetype")),
             ("size_bytes", .n info.size),
             ("download_url", .s (trimRightSlash cfg.publicURL ++ cfg.tusBasePath ++ info.id)),
             ("expires_at", match expiresAt with | some t => .n t | none => .s "")]

/-- `(*MCPServer).handleDeleteFile`.  `deleteErr` is the outcome of the
`DeleteObjects` call. -/
def handleDeleteFile (cfg : Cfg.Config) (deleteErr : Option String) (st : S3State)
    (id tok : String) : ToolResult × S3State :=
  if id = "" then (.err "file_id is required", st)
  else
    let key := objectKey cfg.s3ObjectPfx id
    match getObject st (key ++ ".info") with
    | none => (.err "invalid file_id or management_token", st)
    | some .corrupt => (.err "invalid file_id or management_token", st)
    | some (.dataFile _ _) => (.err "invalid file_id or management_token", st)
    | some (.infoFile info) =>
      if !(tokenMatches (mgmtTokenOf info) tok) then
        (.err "invalid file_id or management_token", st)
      else
        match deleteErr with
        | some e => (.err ("failed to delete file: " ++ e), st)
        | none =>
          (.ok [("deleted", .b true), ("file_id", .s id)],
           deleteObjects st [key, key ++ ".info"])

/-- The arguments of the `upload_file` tool; a missing argument reads as
the empty string, as the Go type assertion with a discarded `ok` does. -/
structure UploadArgs where
  filename : String
  content : String
  contentType : String
  expiresIn : String

/-- `(*MCPServer).handleUploadFile`.  `decodeB64` is the standard-then
URL-safe base64 fallback chain; `genUUID` and `genToken` are the external
random sources (`genToken = none` is a `rand.Read` failure); `putDataErr`
and `putInfoErr` are the outcomes of the two `PutObject` calls (carrying
the Go error text appended to the message); `tagOk` gives each
`PutObjectTagging` outcome, whose errors the handler only logs. -/
def handleUploadFile (cfg : Cfg.Config) (decodeB64 : String → Option (List Nat))
    (genUUID : String) (genToken : Option String) (now : Int)
    (putDataErr putInfoErr : Option String) (tagOk : String → Bool)
    (st : S3State) (args : UploadArgs) : ToolResult × S3State :=
  if args.filename = "" then (.err "filename is required", st)
  else if args.content = "" then (.err "content is required", st)
  else
    match decodeB64 args.content with
    | none => (.err "content must be valid base64", st)
    | some data =>
      let contentType := if args.contentType = "" then "application/octet-stream" else args.contentType
      let expiresIn := if args.expiresIn = "" then "24h" else args.expiresIn
      match validExpiries.lookup expiresIn with
      | none => (.err "expires_in must be one of: 1h, 6h, 24h, 7d, 30d", st)
      | some dur =>
        let objectId := genUUID
        let tusID := objectId ++ "+mcp"
        let key := cfg.s3ObjectPfx ++ objectId
        let expiresAt := now + dur
        match genToken with
        | none => (.err "internal error generating management token", st)
        | some mgmtToken =>
          let size : Int := data.length
          match putDataErr with
          | some e => (.err ("failed to upload file: " ++ e), st)
          | none =>
            let st1 := putObject st key (.dataFile data contentType)
            let info : FileInfo :=
              { id := tusID, size := size, offset := size,
                metaData := [("filename", args.filename), ("filetype", contentType),
                             ("expires-in", expiresIn), ("mgmt-token", mgmtToken)],
                storage := [("Type", "s3store"), ("Bucket", cfg.s3Bucket), ("Key", key)] }
            match putInfoErr with
            | some e => (.err ("failed to write upload metadata: " ++ e), deleteObject st1 key)
            | none =>
              let st2 := putObject st1 (key ++ ".info") (.infoFile info)
              let st3 := if tagOk key then putTags st2 key [("expires-at", expiresAt)] else st2
              let st4 := if tagOk (key ++ ".info") then
                           putTags st3 (key ++ ".info") [("expires-at", expiresAt)]
                         else st3
              (.ok [("file_id", .s tusID), ("management_token", .s mgmtToken),
                    ("download_url", .s (trimRightSlash cfg.publicURL ++ cfg.tusBasePath ++ tusID)),
                    ("expires_at", .n expiresAt), ("filename", .s args.filename),
                    ("size_bytes", .n size)],
               st4)

/-! Concrete fixtures used by the closed instances below. -/

/-- A concrete configuration. -/
def cfgW : Cfg.Config :=
  { s3Bucket := "bkt", s3Region := "r", s3Endpoint := "e",
    s3AccessKey := "ak", s3SecretKey := "sk",
    s3ObjectPfx := "uploads/", tusBasePath := "/files/",
    tusMaxSize := 10737418240, serverAddr := ":8080",
    publicURL := "http://localhost:8080",
    rateLimitGlobal := 50, rateLimitPerIP := 5, logLevel := "info" }

/-- A store with no objects at all. -/
def stEmpty : S3State := { objects := [], tags := [] }

/-- A store whose only `.info` object at the probed key is undecodable. -/
def stCorrupt : S3State :=
  { objects := [("uploads/abc.info", .corrupt)], tags := [] }

/-- A concrete info file whose stored management token is `tok-secret`. -/
def infoW : FileInfo :=
  { id := "abc+mcp", size := 3, offset := 3,
    metaData := [("filename", "f.txt"), ("filetype", "text/plain"),
                 ("expires-in", "24h"), ("mgmt-token", "tok-secret")],
    storage := [("Type", "s3store"), ("Bucket", "bkt"), ("Key", "uploads/abc")] }

/-- A store holding a decodable info file for the probed key. -/
def stInfo : S3State :=
  { objects := [("uploads/abc.info", .infoFile infoW)], tags := [] }

end Mcpserver

/-- A concrete process environment on which `Cfg.Load` succeeds: the
required variables are set, the integer-valued ones are left unset so the
defaults apply. -/
def envW : String → String := fun k =>
  if k = "TUS_MAX_SIZE" ∨ k = "RATE_LIMIT_GLOBAL" ∨ k = "RATE_LIMIT_PER_IP" then "" else "x"

/-- The configuration `Cfg.Load envW` produces. -/
def cfgFromEnvW : Cfg.Config :=
  { s3Bucket := "x", s3Region := "x", s3Endpoint := "x",
    s3AccessKey := "x", s3SecretKey := "x",
    s3ObjectPfx := "x", tusBasePath := "x",
    tusMaxSize := 10737418240, serverAddr := "x", publicURL := "x",
    rateLimitGlobal := 50, rateLimitPerIP := 5, logLevel := "x" }

end Share

namespace Share

/-! ## Theorems: admission controller -/

namespace Ratelimit

/-- Equation: a fully successful acquire increments the global semaphore
and the per-IP semaphore for the named key. -/
theorem acquire_succ_eq (l : Limiter) (ip : String)
    (hg : l.globalSem < l.globalMax) (hp : l.perIP ip < l.perIPMax) :
    acquire l ip =
      ({ l with globalSem := l.globalSem + 1,
                perIP := Function.update l.perIP ip (l.perIP ip + 1) }, true) := by
  simp [acquire, hg, hp]

/-- Equation: when the per-IP semaphore is full, the global token just
taken is received back and the limiter is exactly as before the call. -/
theorem acquire_perip_full_eq (l : Limiter) (ip : String)
    (hg : l.globalSem < l.globalMax) (hp : ¬ l.perIP ip < l.perIPMax) :
    acquire l ip = (l, false) := by
  simp [acquire, hg, hp]

/-- Equation: when the global semaphore is full, acquire fails without
touching anything. -/
theorem acquire_global_full_eq (l : Limiter) (ip : String)
    (hg : ¬ l.globalSem < l.globalMax) :
    acquire l ip = (l, false) := by
  simp [acquire, hg]

/-- Equation: release always truncated-decrements both pools; a pool at 0
stays at 0 because the non-blocking receive is a no-op there. -/
theorem release_eq (l : Limiter) (ip : String) :
    release l ip =
      { l with globalSem := l.globalSem - 1,
               perIP := Function.update l.perIP ip (l.perIP ip - 1) } := by
  unfold release
  by_cases hp : 0 < l.perIP ip
  · by_cases hg : 0 < l.globalSem
    · simp [hp, hg]
    · have h0 : l.globalSem = 0 := by omega
      simp [hp, hg, h0]
  · have h0 : l.perIP ip = 0 := by omega
    have hupd : Function.update l.perIP ip (l.perIP ip - 1) = l.perIP := by
      funext x
      rcases eq_or_ne x ip with rfl | hx
      · rw [Function.update_same]
        omega
      · rw [Function.update_noteq hx]
    by_cases hg : 0 < l.globalSem
    · simp [hp, hg, hupd]
    · have hg0 : l.globalSem = 0 := by omega
      simp [hp, hg, hupd, hg0]
      rw [← hg0]

/-- Helper shared by the claims: a failed acquire returns the unmodified
limiter. -/
theorem acquire_fail_state (l : Limiter) (ip : String)
    (h : (acquire l ip).2 = false) : (acquire l ip).1 = l := by
  by_cases hg : l.globalSem < l.globalMax
  · by_cases hp : l.perIP ip < l.perIPMax
    · rw [acquire_succ_eq l ip hg hp] at h
      simp at h
    · rw [acquire_perip_full_eq l ip hg hp]
  · rw [acquire_global_full_eq l ip hg]

/-- Equation for a trace step on a successful acquire. -/
theorem step_acq_succ (s : Limiter × Stats) (ip : String)
    (hg : s.1.globalSem < s.1.globalMax) (hp : s.1.perIP ip < s.1.perIPMax) :
    step s (.acq ip) =
      ({ s.1 with globalSem := s.1.globalSem + 1,
                  perIP := Function.update s.1.perIP ip (s.1.perIP ip + 1) },
       { s.2 with succAcqG := s.2.succAcqG + 1,
                  succAcq := Function.update s.2.succAcq ip (s.2.succAcq ip + 1) }) := by
  simp [step, acquire_succ_eq s.1 ip hg hp]

/-- Equation for a trace step on a failed acquire. -/
theorem step_acq_fail (s : Limiter × Stats) (ip : String)
    (hf : (acquire s.1 ip).2 = false) :
    step s (.acq ip) = ((acquire s.1 ip).1, s.2) := by
  simp [step, hf]

/-- Equation for a trace step on a release. -/
theorem step_rel (s : Limiter × Stats) (ip : String) :
    step s (.rel ip) =
      (release s.1 ip,
       { s.2 with
           effRelG := if 0 < s.1.globalSem then s.2.effRelG + 1 else s.2.effRelG
           effRel := if 0 < s.1.perIP ip then
                       Function.update s.2.effRel ip (s.2.effRel ip + 1)
                     else s.2.effRel }) := rfl

/-- The inductive invariant tying a limiter state to its trace
bookkeeping. -/
def Inv (G P : Nat) (s : Limiter × Stats) : Prop :=
  s.1.globalMax = G ∧ s.1.perIPMax = P ∧
  s.1.globalSem ≤ G ∧ (∀ k, s.1.perIP k ≤ P) ∧
  s.1.globalSem + s.2.effRelG = s.2.succAcqG ∧
  (∀ k, s.1.perIP k + s.2.effRel k = s.2.succAcq k)

theorem inv_init (G P : Nat) : Inv G P (New G P, Stats.init) := by
  simp [Inv, New, Stats.init]

theorem inv_step (G P : Nat) (s : Limiter × Stats) (op : Op) (h : Inv G P s) :
    Inv G P (step s op) := by
  obtain ⟨hG, hP, hgle, hple, hbalG, hbal⟩ := h
  cases op with
  | acq ip =>
    by_cases hg : s.1.globalSem < s.1.globalMax
    · by_cases hp : s.1.perIP ip < s.1.perIPMax
      · rw [step_acq_succ s ip hg hp]
        refine ⟨hG, hP, ?_, fun k => ?_, ?_, fun k => ?_⟩
        · show s.1.globalSem + 1 ≤ G
          omega
        · show Function.update s.1.perIP ip (s.1.perIP ip + 1) k ≤ P
          rcases eq_or_ne k ip with rfl | hk
          · rw [Function.update_same]
            omega
          · rw [Function.update_noteq hk]
            exact hple k
        · show s.1.globalSem + 1 + s.2.effRelG = s.2.succAcqG + 1
          omega
        · show Function.update s.1.perIP ip (s.1.perIP ip + 1) k + s.2.effRel k
            = Function.update s.2.succAcq ip (s.2.succAcq ip + 1) k
          rcases eq_or_ne k ip with rfl | hk
          · rw [Function.update_same, Function.update_same]
            have := hbal k
            omega
          · rw [Function.update_noteq hk, Function.update_noteq hk]
            exact hbal k
      · have hf : acquire s.1 ip = (s.1, false) := acquire_perip_full_eq s.1 ip hg hp
        rw [step_acq_fail s ip (by rw [hf]), hf]
        exact ⟨hG, hP, hgle, hple, hbalG, hbal⟩
    · have hf : acquire s.1 ip = (s.1, false) := acquire_global_full_eq s.1 ip hg
      rw [step_acq_fail s ip (by rw [hf]), hf]
      exact ⟨hG, hP, hgle, hple, hbalG, hbal⟩
  | rel ip =>
    rw [step_rel s ip, release_eq s.1 ip]
    have hbal1 := hbal ip
    by_cases hg : 0 < s.1.globalSem
    · rw [if_pos hg]
      by_cases hp : 0 < s.1.perIP ip
      · rw [if_pos hp]
        refine ⟨hG, hP, ?_, fun k => ?_, ?_, fun k => ?_⟩
        · show s.1.globalSem - 1 ≤ G
          omega
        · show Function.update s.1.perIP ip (s.1.perIP ip - 1) k ≤ P
          rcases eq_or_ne k ip with rfl | hk
          · rw [Function.update_same]
            have := hple k
            omega
          · rw [Function.update_noteq hk]
            exact hple k
        · show s.1.globalSem - 1 + (s.2.effRelG + 1) = s.2.succAcqG
          omega
        · show Function.update s.1.perIP ip (s.1.perIP ip - 1) k + Function.update s.2.effRel ip (s.2.effRel ip + 1) k = s.2.succAcq k
          rcases eq_or_ne k ip with rfl | hk
          · rw [Function.update_same, Function.update_same]
            omega
          · rw [Function.update_noteq hk, Function.update_noteq hk]
            exact hbal k
      · rw [if_neg hp]
        have hp0 : s.1.perIP ip = 0 := by omega
        refine ⟨hG, hP, ?_, fun k => ?_, ?_, fun k => ?_⟩
        · show s.1.globalSem - 1 ≤ G
          omega
        · show Function.update s.1.perIP ip (s.1.perIP ip - 1) k ≤ P
          rcases eq_or_ne k ip with rfl | hk
          · rw [Function.update_same]
            have := hple k
            omega
          · rw [Function.update_noteq hk]
            exact hple k
        · show s.1.globalSem - 1 + (s.2.effRelG + 1) = s.2.succAcqG
          omega
        · show Function.update s.1.perIP ip (s.1.perIP ip - 1) k + s.2.effRel k = s.2.succAcq k
          rcases eq_or_ne k ip with rfl | hk
          · rw [Function.update_same]
            omega
          · rw [Function.update_noteq hk]
            exact hbal k
    · rw [if_neg hg]
      have hg0 : s.1.globalSem = 0 := by omega
      by_cases hp : 0 < s.1.perIP ip
      · rw [if_pos hp]
        refine ⟨hG, hP, ?_, fun k => ?_, ?_, fun k => ?_⟩
        · show s.1.globalSem - 1 ≤ G
          omega
        · show Function.update s.1.perIP ip (s.1.perIP ip - 1) k ≤ P
          rcases eq_or_ne k ip with rfl | hk
          · rw [Function.update_same]
            have := hple k
            omega
          · rw [Function.update_noteq hk]
            exact hple k
        · show s.1.globalSem - 1 + s.2.effRelG = s.2.succAcqG
          omega
        · show Function.update s.1.perIP ip (s.1.perIP ip - 1) k + Function.update s.2.effRel ip (s.2.effRel ip + 1) k = s.2.succAcq k
          rcases eq_or_ne k ip with rfl | hk
          · rw [Function.update_same, Function.update_same]
            omega
          · rw [Function.update_noteq hk, Function.update_noteq hk]
            exact hbal k
      · rw [if_neg hp]
        have hp0 : s.1.perIP ip = 0 := by omega
        refine ⟨hG, hP, ?_, fun k => ?_, ?_, fun k => ?_⟩
        · show s.1.globalSem - 1 ≤ G
          omega
        · show Function.update s.1.perIP ip (s.1.perIP ip - 1) k ≤ P
          rcases eq_or_ne k ip with rfl | hk
          · rw [Function.update_same]
            have := hple k
            omega
          · rw [Function.update_noteq hk]
            exact hple k
        · show s.1.globalSem - 1 + s.2.effRelG = s.2.succAcqG
          omega
        · show Function.update s.1.perIP ip (s.1.perIP ip - 1) k + s.2.effRel k = s.2.succAcq k
          rcases eq_or_ne k ip with rfl | hk
          · rw [Function.update_same]
            omega
          · rw [Function.update_noteq hk]
            exact hbal k

theorem inv_run (G P : Nat) (ops : List Op) : Inv G P (run (New G P) ops) := by
  have h : ∀ (s : Limiter × Stats), Inv G P s → Inv G P (ops.foldl step s) := by
    induction ops with
    | nil => intro s hs; exact hs
    | cons op rest ih =>
      intro s hs
      exact ih (step s op) (inv_step G P s op hs)
  exact h (New G P, Stats.init) (inv_init G P)

/-- C1.  If `acquire` returns false — because the global semaphore is full,
or because the per-IP semaphore is full after the global token was taken —
the limiter state returned is exactly the state before the call: the
partial global reservation is rolled back, so neither the global count nor
any per-IP count changes on failure. -/
theorem acquire_failure_rolls_back (l : Limiter) (ip : String)
    (h : (acquire l ip).2 = false) : (acquire l ip).1 = l :=
  acquire_fail_state l ip h

/-- Witness for C1: with a per-IP ceiling of 0 the per-IP stage fails, and
the rollback restores the untouched limiter. -/
theorem acquire_failure_rolls_back_witness :
    (acquire (New 5 0) "client").2 = false ∧ (acquire (New 5 0) "client").1 = New 5 0 :=
  ⟨rfl, acquire_failure_rolls_back (New 5 0) "client" rfl⟩

/-- C2.  Along any trace of acquire and release calls starting from
`New G P`: the global in-use count stays at most `G` (and, being a `Nat`,
at least 0), every per-key count stays at most `P`, successful acquires
minus effective releases equal the current count for the global pool and
for every per-key pool, and `release` on an empty pool is a no-op that
never drives a count negative — stated as the unconditional truncated
decrements in the last two conjuncts, which fix a count at 0 when it
already is 0. -/
theorem limiter_invariants (G P : Nat) (ops : List Op) (k : String)
    (l : Limiter) (ip : String) :
    (run (New G P) ops).1.globalSem ≤ G ∧
    (run (New G P) ops).1.perIP k ≤ P ∧
    (run (New G P) ops).1.globalSem + (run (New G P) ops).2.effRelG
      = (run (New G P) ops).2.succAcqG ∧
    (run (New G P) ops).1.perIP k + (run (New G P) ops).2.effRel k
      = (run (New G P) ops).2.succAcq k ∧
    (release l ip).globalSem = l.globalSem - 1 ∧
    (release l ip).perIP ip = l.perIP ip - 1 := by
  obtain ⟨-, -, hgle, hple, hbalG, hbal⟩ := inv_run G P ops
  refine ⟨hgle, hple k, hbalG, hbal k, ?_, ?_⟩
  · rw [release_eq l ip]
  · rw [release_eq l ip]
    show Function.update l.perIP ip (l.perIP ip - 1) ip = l.perIP ip - 1
    rw [Function.update_same]

end Ratelimit

end Share

namespace Share

/-! ## Theorems: ownership token authority and MCP management handlers -/

namespace Mcpserver

theorem lor_eq_zero (a b : Nat) : a ||| b = 0 ↔ a = 0 ∧ b = 0 := by
  constructor
  · intro h
    have hb : ∀ i, a.testBit i = false ∧ b.testBit i = false := by
      intro i
      have h2 : (a ||| b).testBit i = false := by simp [h]
      rw [Nat.testBit_or] at h2
      exact ⟨(Bool.or_eq_false_iff.mp h2).1, (Bool.or_eq_false_iff.mp h2).2⟩
    exact ⟨Nat.eq_of_testBit_eq fun i => by simp [(hb i).1],
           Nat.eq_of_testBit_eq fun i => by simp [(hb i).2]⟩
  · rintro ⟨rfl, rfl⟩
    rfl

theorem ctcFold_eq_zero (x : List Nat) : ∀ y : List Nat, x.length = y.length →
    (ctcFold x y = 0 ↔ x = y) := by
  induction x with
  | nil =>
    intro y hlen
    cases y with
    | nil => simp [ctcFold]
    | cons b ys => simp at hlen
  | cons a xs ih =>
    intro y hlen
    cases y with
    | nil => simp at hlen
    | cons b ys =>
      have hl : xs.length = ys.length := by simpa using hlen
      simp only [ctcFold, lor_eq_zero, Nat.xor_eq_zero, List.cons.injEq]
      rw [ih ys hl]

theorem constantTimeCompare_eq_one (x y : List Nat) :
    constantTimeCompare x y = 1 ↔ x = y := by
  unfold constantTimeCompare
  by_cases hl : x.length = y.length
  · rw [if_pos hl]
    by_cases hz : ctcFold x y = 0
    · rw [if_pos hz]
      exact ⟨fun _ => (ctcFold_eq_zero x y hl).mp hz, fun _ => rfl⟩
    · rw [if_neg hz]
      constructor
      · intro h
        exact absurd h (by decide)
      · intro hxy
        exact absurd ((ctcFold_eq_zero x y hl).mpr hxy) hz
  · rw [if_neg hl]
    constructor
    · intro h
      exact absurd h (by decide)
    · intro hxy
      subst hxy
      exact absurd rfl hl

theorem toBytes_inj (s t : String) (h : toBytes s = toBytes t) : s = t := by
  apply String.ext
  unfold toBytes at h
  have hinj : Function.Injective Char.toNat := fun c d hcd =>
    Char.eq_of_val_eq (UInt32.toNat.inj hcd)
  exact List.map_injective_iff.mpr hinj h

/-- C5.  `tokenMatches` returns true exactly when both strings are
non-empty and equal; in particular it returns false when either side is
empty and when the strings differ anywhere.  (The constant-time execution
property itself is a timing property outside the embedding; what is
verified is the input-output behaviour of the `subtle.ConstantTimeCompare`
comparison.) -/
theorem tokenMatches_iff (stored provided : String) :
    tokenMatches stored provided = true ↔
      stored ≠ "" ∧ provided ≠ "" ∧ stored = provided := by
  unfold tokenMatches
  by_cases he : stored = "" ∨ provided = ""
  · rw [if_pos he]
    simp only [Bool.false_eq_true, false_iff]
    rintro ⟨h1, h2, -⟩
    rcases he with he | he
    · exact h1 he
    · exact h2 he
  · rw [if_neg he]
    push_neg at he
    simp only [beq_iff_eq]
    constructor
    · intro h1
      exact ⟨he.1, he.2, toBytes_inj _ _ ((constantTimeCompare_eq_one _ _).mp h1)⟩
    · rintro ⟨-, -, rfl⟩
      exact (constantTimeCompare_eq_one _ _).mpr rfl

/-- C4.  For both management handlers, the three failure modes — the
side-channel `.info` object does not exist (or its read fails), it exists
but does not decode, and it decodes but the supplied token does not match
the stored one — all produce the same error payload, the literal string
`invalid file_id or management_token`, and the delete handler leaves the
store untouched in each case. -/
theorem management_errors_uniform (cfg : Cfg.Config) (tagReadOk : Bool)
    (deleteErr : Option String) (st : S3State) (id tok : String) (info : FileInfo)
    (hid : id ≠ "") :
    (getObject st (objectKey cfg.s3ObjectPfx id ++ ".info") = none →
      handleGetFileInfo cfg tagReadOk st id tok
        = .err "invalid file_id or management_token" ∧
      handleDeleteFile cfg deleteErr st id tok
        = (.err "invalid file_id or management_token", st)) ∧
    (getObject st (objectKey cfg.s3ObjectPfx id ++ ".info") = some .corrupt →
      handleGetFileInfo cfg tagReadOk st id tok
        = .err "invalid file_id or management_token" ∧
      handleDeleteFile cfg deleteErr st id tok
        = (.err "invalid file_id or management_token", st)) ∧
    (getObject st (objectKey cfg.s3ObjectPfx id ++ ".info") = some (.infoFile info) →
      tokenMatches (mgmtTokenOf info) tok = false →
      handleGetFileInfo cfg tagReadOk st id tok
        = .err "invalid file_id or management_token" ∧
      handleDeleteFile cfg deleteErr st id tok
        = (.err "invalid file_id or management_token", st)) := by
  refine ⟨fun h => ?_, fun h => ?_, fun h htok => ?_⟩
  · constructor <;> simp [handleGetFileInfo, handleDeleteFile, hid, h]
  · constructor <;> simp [handleGetFileInfo, handleDeleteFile, hid, h]
  · constructor <;> simp [handleGetFileInfo, handleDeleteFile, hid, h, htok]

/-- Witness for C4 at concrete inputs: a missing info object, a corrupt
info object, and a wrong token against a stored one all yield the same
error payload on both handlers. -/
theorem management_errors_uniform_witness :
    (handleGetFileInfo cfgW true stEmpty "abc" "wrong"
        = .err "invalid file_id or management_token" ∧
      handleDeleteFile cfgW none stEmpty "abc" "wrong"
        = (.err "invalid file_id or management_token", stEmpty)) ∧
    (handleGetFileInfo cfgW true stCorrupt "abc" "wrong"
        = .err "invalid file_id or management_token" ∧
      handleDeleteFile cfgW none stCorrupt "abc" "wrong"
        = (.err "invalid file_id or management_token", stCorrupt)) ∧
    (handleGetFileInfo cfgW true stInfo "abc" "wrong"
        = .err "invalid file_id or management_token" ∧
      handleDeleteFile cfgW none stInfo "abc" "wrong"
        = (.err "invalid file_id or management_token", stInfo)) :=
  ⟨(management_errors_uniform cfgW true none stEmpty "abc" "wrong" infoW
      (by decide)).1 (by decide),
   (management_errors_uniform cfgW true none stCorrupt "abc" "wrong" infoW
      (by decide)).2.1 (by decide),
   (management_errors_uniform cfgW true none stInfo "abc" "wrong" infoW
      (by decide)).2.2 (by decide) (by decide)⟩

theorem indexOfPlus_none (l : List Char) (h : indexOfPlus l = none) :
    l.takeWhile (fun c => c != '+') = l := by
  induction l with
  | nil => rfl
  | cons c rest ih =>
    unfold indexOfPlus at h
    by_cases hc : (c == '+') = true
    · rw [if_pos hc] at h
      cases h
    · rw [if_neg hc] at h
      have hrest : indexOfPlus rest = none := by
        cases hr : indexOfPlus rest with
        | none => rfl
        | some j => rw [hr] at h; cases h
      rw [List.takeWhile_cons, if_pos (by simpa using hc), ih hrest]

theorem indexOfPlus_some (l : List Char) : ∀ i : Nat, indexOfPlus l = some i →
    l.take i = l.takeWhile (fun c => c != '+') := by
  induction l with
  | nil => intro i h; cases h
  | cons c rest ih =>
    intro i h
    unfold indexOfPlus at h
    by_cases hc : (c == '+') = true
    · rw [if_pos hc] at h
      cases h
      have hceq : c = '+' := by simpa using hc
      rw [List.takeWhile_cons, if_neg (by simp [hceq]), List.take_zero]
    · rw [if_neg hc] at h
      cases hr : indexOfPlus rest with
      | none => rw [hr] at h; cases h
      | some j =>
        rw [hr] at h
        simp at h
        subst h
        rw [List.takeWhile_cons, if_pos (by simpa using hc), List.take_succ_cons,
            ih j hr]

/-- C10.  The object key a management operation acts on is the configured
key namespace followed by exactly the part of the supplied `file_id`
before its first plus character (the whole id when there is none); hence
two ids that agree before their first plus address the same stored
object. -/
theorem objectKey_cuts_at_plus (pfx id id1 id2 : String)
    (h : id1.data.takeWhile (fun c => c != '+')
        = id2.data.takeWhile (fun c => c != '+')) :
    objectKey pfx id = pfx ++ String.mk (id.data.takeWhile (fun c => c != '+')) ∧
    ((∀ c ∈ id.data, c ≠ '+') → objectKey pfx id = pfx ++ id) ∧
    objectKey pfx id1 = objectKey pfx id2 := by
  have key : ∀ s : String,
      objectKey pfx s = pfx ++ String.mk (s.data.takeWhile (fun c => c != '+')) := by
    intro s
    unfold objectKey
    cases hidx : indexOfPlus s.data with
    | none =>
      show pfx ++ s = pfx ++ String.mk (s.data.takeWhile (fun c => c != '+'))
      rw [indexOfPlus_none s.data hidx]
    | some i =>
      show pfx ++ String.mk (s.data.take i)
          = pfx ++ String.mk (s.data.takeWhile (fun c => c != '+'))
      rw [indexOfPlus_some s.data i hidx]
  have hall : ∀ l : List Char, (∀ c ∈ l, c ≠ '+') →
      l.takeWhile (fun c => c != '+') = l := by
    intro l
    induction l with
    | nil => intro _; rfl
    | cons c rest ih =>
      intro hl
      have hc : (c != '+') = true := by
        simpa using hl c (List.mem_cons_self c rest)
      rw [List.takeWhile_cons, if_pos hc, ih fun d hd => hl d (List.mem_cons_of_mem c hd)]
  refine ⟨key id, fun hnp => ?_, by rw [key id1, key id2, h]⟩
  rw [key id, hall id.data hnp]

/-- Witness for C10: ids `abc+x` and `abc+y` agree before the plus and
address one key; an id without a plus maps to itself under the key
namespace. -/
theorem objectKey_cuts_at_plus_witness :
    objectKey "uploads/" "abc+mcp"
      = "uploads/" ++ String.mk ("abc+mcp".data.takeWhile (fun c => c != '+')) ∧
    ((∀ c ∈ "abc+mcp".data, c ≠ '+') →
      objectKey "uploads/" "abc+mcp" = "uploads/" ++ "abc+mcp") ∧
    objectKey "uploads/" "abc+x" = objectKey "uploads/" "abc+y" :=
  objectKey_cuts_at_plus "uploads/" "abc+mcp" "abc+x" "abc+y" (by decide)

end Mcpserver

end Share

namespace Share

/-! ## Theorems: TTL classes and configuration surface -/

theorem failed_upload_ne (e : String) :
    "failed to upload file: " ++ e ≠ "expires_in must be one of: 1h, 6h, 24h, 7d, 30d" := by
  intro h
  have h2 : ("failed to upload file: " ++ e).data.head? = some 'f' := by
    rw [String.data_append]
    rfl
  rw [h] at h2
  exact absurd h2 (by decide)

theorem failed_meta_ne (e : String) :
    "failed to write upload metadata: " ++ e
      ≠ "expires_in must be one of: 1h, 6h, 24h, 7d, 30d" := by
  intro h
  have h2 : ("failed to write upload metadata: " ++ e).data.head? = some 'f' := by
    rw [String.data_append]
    rfl
  rw [h] at h2
  exact absurd h2 (by decide)

/-- C8.  The TTL classes `1h, 6h, 24h, 7d, 30d` are accepted at creation
on both paths: `PreCreate` passes them through, and `handleUploadFile`
never answers the TTL-rejection error for them — whatever the outcomes of
the external calls — and returns a success payload when those calls
succeed.  An absent class is treated as the default `24h` (injected into
the metadata changes on the tus path, normalized before use on the MCP
path); any other value is rejected with a 400 client error on the tus
path and with an error tool result on the MCP path, leaving the store
unchanged (no object created). -/
theorem ttl_class_validation :
    (∀ (meta : List (String × String)) (e : String),
        e ∈ ["1h", "6h", "24h", "7d", "30d"] → mapGet meta "expires-in" = e →
        Hooks.PreCreate meta = .accepted) ∧
    (∀ meta : List (String × String), mapGet meta "expires-in" = "" →
        Hooks.PreCreate meta = .defaultInjected (mapSet meta "expires-in" "24h")) ∧
    (∀ (meta : List (String × String)) (e : String),
        mapGet meta "expires-in" = e → e ≠ "" → e ∉ ["1h", "6h", "24h", "7d", "30d"] →
        Hooks.PreCreate meta
          = .rejected 400
              ("invalid expires-in " ++ e ++ "; valid values: 1h, 6h, 24h, 7d, 30d")) ∧
    (∀ (cfg : Cfg.Config) (dec : String → Option (List Nat)) (gid : String)
        (gtok : Option String) (now : Int) (pde pie : Option String)
        (tg : String → Bool) (st : Mcpserver.S3State) (args : Mcpserver.UploadArgs),
        args.filename ≠ "" → args.content ≠ "" → (dec args.content).isSome = true →
        args.expiresIn ≠ "" → args.expiresIn ∉ ["1h", "6h", "24h", "7d", "30d"] →
        Mcpserver.handleUploadFile cfg dec gid gtok now pde pie tg st args
          = (.err "expires_in must be one of: 1h, 6h, 24h, 7d, 30d", st)) ∧
    (∀ (cfg : Cfg.Config) (dec : String → Option (List Nat)) (gid : String)
        (gtok : Option String) (now : Int) (pde pie : Option String)
        (tg : String → Bool) (st : Mcpserver.S3State) (args : Mcpserver.UploadArgs),
        args.expiresIn = "" →
        Mcpserver.handleUploadFile cfg dec gid gtok now pde pie tg st args
          = Mcpserver.handleUploadFile cfg dec gid gtok now pde pie tg st
              { args with expiresIn := "24h" }) ∧
    (∀ (cfg : Cfg.Config) (dec : String → Option (List Nat)) (gid : String)
        (gtok : Option String) (now : Int) (pde pie : Option String)
        (tg : String → Bool) (st : Mcpserver.S3State) (args : Mcpserver.UploadArgs),
        args.filename ≠ "" → args.content ≠ "" → (dec args.content).isSome = true →
        args.expiresIn ∈ ["1h", "6h", "24h", "7d", "30d"] →
        (Mcpserver.handleUploadFile cfg dec gid gtok now pde pie tg st args).1
          ≠ .err "expires_in must be one of: 1h, 6h, 24h, 7d, 30d") ∧
    (∀ (cfg : Cfg.Config) (dec : String → Option (List Nat)) (gid mgmtTok : String)
        (now : Int) (tg : String → Bool) (st : Mcpserver.S3State)
        (args : Mcpserver.UploadArgs),
        args.filename ≠ "" → args.content ≠ "" → (dec args.content).isSome = true →
        args.expiresIn ∈ ["1h", "6h", "24h", "7d", "30d"] →
        ∃ payload st2,
          Mcpserver.handleUploadFile cfg dec gid (some mgmtTok) now none none tg st args
            = (.ok payload, st2)) := by
  refine ⟨?_, ?_, ?_, ?_, ?_, ?_, ?_⟩
  · intro meta e he hme
    have he2 : e = "1h" ∨ e = "6h" ∨ e = "24h" ∨ e = "7d" ∨ e = "30d" := by
      simpa using he
    rcases he2 with rfl | rfl | rfl | rfl | rfl <;>
      simp [Hooks.PreCreate, hme, Hooks.validExpiries]
  · intro meta hme
    simp [Hooks.PreCreate, hme]
  · intro meta e hme hne hnotin
    have hn2 : ¬(e = "1h" ∨ e = "6h" ∨ e = "24h" ∨ e = "7d" ∨ e = "30d") := by
      simpa using hnotin
    push_neg at hn2
    obtain ⟨h1, h2, h3, h4, h5⟩ := hn2
    have hb1 : (e == "1h") = false := beq_eq_false_iff_ne.mpr h1
    have hb2 : (e == "6h") = false := beq_eq_false_iff_ne.mpr h2
    have hb3 : (e == "24h") = false := beq_eq_false_iff_ne.mpr h3
    have hb4 : (e == "7d") = false := beq_eq_false_iff_ne.mpr h4
    have hb5 : (e == "30d") = false := beq_eq_false_iff_ne.mpr h5
    have hlk : Hooks.validExpiries.lookup e = none := by
      simp [Hooks.validExpiries, List.lookup, hb1, hb2, hb3, hb4, hb5]
    simp [Hooks.PreCreate, hme, hne, hlk]
  · intro cfg dec gid gtok now pde pie tg st args hfn hct hdec hne hnotin
    obtain ⟨d, hd⟩ := Option.isSome_iff_exists.mp hdec
    have hn2 : ¬(args.expiresIn = "1h" ∨ args.expiresIn = "6h" ∨ args.expiresIn = "24h" ∨
        args.expiresIn = "7d" ∨ args.expiresIn = "30d") := by
      simpa using hnotin
    push_neg at hn2
    obtain ⟨h1, h2, h3, h4, h5⟩ := hn2
    have hb1 : (args.expiresIn == "1h") = false := beq_eq_false_iff_ne.mpr h1
    have hb2 : (args.expiresIn == "6h") = false := beq_eq_false_iff_ne.mpr h2
    have hb3 : (args.expiresIn == "24h") = false := beq_eq_false_iff_ne.mpr h3
    have hb4 : (args.expiresIn == "7d") = false := beq_eq_false_iff_ne.mpr h4
    have hb5 : (args.expiresIn == "30d") = false := beq_eq_false_iff_ne.mpr h5
    have hlk : Mcpserver.validExpiries.lookup args.expiresIn = none := by
      simp [Mcpserver.validExpiries, List.lookup, hb1, hb2, hb3, hb4, hb5]
    simp [Mcpserver.handleUploadFile, hfn, hct, hd, hne, hlk]
  · intro cfg dec gid gtok now pde pie tg st args hemp
    simp [Mcpserver.handleUploadFile, hemp]
  · intro cfg dec gid gtok now pde pie tg st args hfn hct hdec he
    obtain ⟨d, hd⟩ := Option.isSome_iff_exists.mp hdec
    have he2 : args.expiresIn = "1h" ∨ args.expiresIn = "6h" ∨ args.expiresIn = "24h" ∨
        args.expiresIn = "7d" ∨ args.expiresIn = "30d" := by
      simpa using he
    rcases he2 with h | h | h | h | h <;>
    · cases gtok with
      | none => simp [Mcpserver.handleUploadFile, hfn, hct, hd, h, Mcpserver.validExpiries,
                      List.lookup]
      | some tok =>
        cases pde with
        | some ep =>
          intro hcontra
          simp [Mcpserver.handleUploadFile, hfn, hct, hd, h,
                Mcpserver.validExpiries, List.lookup] at hcontra
          exact failed_upload_ne ep hcontra
        | none =>
          cases pie with
          | some ep2 =>
            intro hcontra
            simp [Mcpserver.handleUploadFile, hfn, hct, hd, h,
                  Mcpserver.validExpiries, List.lookup] at hcontra
            exact failed_meta_ne ep2 hcontra
          | none =>
            simp [Mcpserver.handleUploadFile, hfn, hct, hd, h, Mcpserver.validExpiries,
                  List.lookup]
  · intro cfg dec gid mgmtTok now tg st args hfn hct hdec he
    obtain ⟨d, hd⟩ := Option.isSome_iff_exists.mp hdec
    have he2 : args.expiresIn = "1h" ∨ args.expiresIn = "6h" ∨ args.expiresIn = "24h" ∨
        args.expiresIn = "7d" ∨ args.expiresIn = "30d" := by
      simpa using he
    rcases he2 with h | h | h | h | h <;>
      exact ⟨_, _, by
        simp [Mcpserver.handleUploadFile, hfn, hct, hd, h, Mcpserver.validExpiries,
              List.lookup]
        exact ⟨rfl, rfl⟩⟩

/-- Witness for C8 at concrete inputs: `6h` accepted on the tus path,
`7d` accepted on the MCP path (no TTL rejection, success payload when the
external calls succeed), absence defaulted to `24h` on both paths, `2h`
rejected on both paths with the store untouched. -/
theorem ttl_class_validation_witness :
    Hooks.PreCreate [("expires-in", "6h")] = .accepted ∧
    Hooks.PreCreate [("filename", "a")]
      = .defaultInjected (mapSet [("filename", "a")] "expires-in" "24h") ∧
    Hooks.PreCreate [("expires-in", "2h")]
      = .rejected 400
          ("invalid expires-in " ++ "2h" ++ "; valid values: 1h, 6h, 24h, 7d, 30d") ∧
    Mcpserver.handleUploadFile Mcpserver.cfgW (fun _ => some [65, 66]) "uid" (some "tok") 0
        none none (fun _ => true) Mcpserver.stEmpty ⟨"f.txt", "QUJD", "", "2h"⟩
      = (.err "expires_in must be one of: 1h, 6h, 24h, 7d, 30d", Mcpserver.stEmpty) ∧
    Mcpserver.handleUploadFile Mcpserver.cfgW (fun _ => some [65, 66]) "uid" (some "tok") 0
        none none (fun _ => true) Mcpserver.stEmpty ⟨"f.txt", "QUJD", "", ""⟩
      = Mcpserver.handleUploadFile Mcpserver.cfgW (fun _ => some [65, 66]) "uid" (some "tok") 0
        none none (fun _ => true) Mcpserver.stEmpty ⟨"f.txt", "QUJD", "", "24h"⟩ ∧
    (Mcpserver.handleUploadFile Mcpserver.cfgW (fun _ => some [65, 66]) "uid" (some "tok") 0
        none none (fun _ => true) Mcpserver.stEmpty ⟨"f.txt", "QUJD", "", "7d"⟩).1
      ≠ .err "expires_in must be one of: 1h, 6h, 24h, 7d, 30d" ∧
    (∃ payload st2,
      Mcpserver.handleUploadFile Mcpserver.cfgW (fun _ => some [65, 66]) "uid" (some "tok") 0
          none none (fun _ => true) Mcpserver.stEmpty ⟨"f.txt", "QUJD", "", "7d"⟩
        = (.ok payload, st2)) :=
  ⟨ttl_class_validation.1 [("expires-in", "6h")] "6h" (by decide) (by decide),
   ttl_class_validation.2.1 [("filename", "a")] (by decide),
   ttl_class_validation.2.2.1 [("expires-in", "2h")] "2h" (by decide) (by decide) (by decide),
   ttl_class_validation.2.2.2.1 Mcpserver.cfgW (fun _ => some [65, 66]) "uid" (some "tok") 0
     none none (fun _ => true) Mcpserver.stEmpty ⟨"f.txt", "QUJD", "", "2h"⟩
     (by decide) (by decide) rfl (by decide) (by decide),
   ttl_class_validation.2.2.2.2.1 Mcpserver.cfgW (fun _ => some [65, 66]) "uid" (some "tok") 0
     none none (fun _ => true) Mcpserver.stEmpty ⟨"f.txt", "QUJD", "", ""⟩ rfl,
   ttl_class_validation.2.2.2.2.2.1 Mcpserver.cfgW (fun _ => some [65, 66]) "uid"
     (some "tok") 0 none none (fun _ => true) Mcpserver.stEmpty
     ⟨"f.txt", "QUJD", "", "7d"⟩ (by decide) (by decide) rfl (by decide),
   ttl_class_validation.2.2.2.2.2.2 Mcpserver.cfgW (fun _ => some [65, 66]) "uid" "tok" 0
     (fun _ => true) Mcpserver.stEmpty ⟨"f.txt", "QUJD", "", "7d"⟩
     (by decide) (by decide) rfl (by decide)⟩

/-- C9 counterexample: the interval the expiry worker runs on is one and
the same constant (10 minutes in nanoseconds) for every configuration —
`Worker.New` ignores its configuration argument when setting the interval,
and `Config` itself carries no sweep-interval option — so no configuration
input makes the recurring interval differ from 10 minutes. -/
theorem sweep_interval_ignores_config :
    (fun cfg => (Expiry.New cfg).interval) = fun _ => (600000000000 : Int) := rfl

/-- C9 (amended).  The sweep interval is not part of the recognized
configuration surface: whatever environment the configuration is loaded
from, the worker built over the loaded configuration runs on the fixed
10-minute interval. -/
theorem sweep_interval_fixed (env : String → String) (cfg : Cfg.Config)
    (_h : Cfg.Load env = .ok cfg) :
    (Expiry.New cfg).interval = 600000000000 := rfl

/-- Witness for the amended C9: a concrete environment on which `Load`
succeeds, whose worker still gets the 10-minute interval. -/
theorem sweep_interval_fixed_witness :
    Cfg.Load envW = .ok cfgFromEnvW ∧
    (Expiry.New cfgFromEnvW).interval = 600000000000 :=
  ⟨rfl, sweep_interval_fixed envW cfgFromEnvW rfl⟩

end Share

namespace Share

/-! ## Theorems: expiry sweeper -/

namespace Expiry

theorem hasSuffix_append (s sfx : String) : hasSuffix (s ++ sfx) sfx = true := by
  unfold hasSuffix
  rw [String.data_append]
  simp [List.isSuffixOf]

/-- A key contributed by one object of the scan loop is either the object
key itself — in which case the object had a parsed deadline — or its
side-channel companion key. -/
theorem mem_markObject (parseTs : String → Option Int) (now : Int)
    (o : SweepObject) (x : String) (hx : x ∈ markObject parseTs now o) :
    (x = o.key ∧ noDeadline parseTs o = false) ∨ x = o.key ++ ".info" := by
  unfold markObject at hx
  split at hx
  · cases hx
  · split at hx
    · cases hx
    · rename_i tags htag
      split at hx
      · cases hx
      · rename_i v hft
        split at hx
        · cases hx
        · rename_i t hpt
          split at hx
          · simp only [List.mem_cons, List.not_mem_nil, or_false] at hx
            rcases hx with rfl | rfl
            · left
              refine ⟨rfl, ?_⟩
              simp only [noDeadline, htag, hft, hpt, Option.isNone]
            · right
              rfl
          · cases hx

theorem mem_marksOf (parseTs : String → Option Int) (now : Int)
    (l : List SweepObject) (x : String) (hx : x ∈ marksOf parseTs now l) :
    ∃ o ∈ l, x ∈ markObject parseTs now o := by
  induction l with
  | nil => cases hx
  | cons o rest ih =>
    simp only [marksOf] at hx
    rcases List.mem_append.mp hx with h | h
    · exact ⟨o, List.mem_cons_self o rest, h⟩
    · obtain ⟨o2, ho2, hxo⟩ := ih h
      exact ⟨o2, List.mem_cons_of_mem o ho2, hxo⟩

theorem mem_runOnceMarked (parseTs : String → Option Int) (now : Int)
    (listing : List (Option SweepPage)) (x : String)
    (hx : x ∈ runOnceMarked parseTs now listing) :
    ∃ p, some p ∈ listing ∧ x ∈ pageMarks parseTs now p := by
  induction listing with
  | nil => cases hx
  | cons pg rest ih =>
    cases pg with
    | none =>
      simp only [runOnceMarked] at hx
      cases hx
    | some p =>
      simp only [runOnceMarked] at hx
      rcases List.mem_append.mp hx with h | h
      · exact ⟨p, List.mem_cons_self _ _, h⟩
      · obtain ⟨q, hq, hxq⟩ := ih h
        exact ⟨q, List.mem_cons_of_mem _ hq, hxq⟩

/-- Whatever a pass deletes, it first marked. -/
theorem runOnce_subset_marked (parseTs : String → Option Int) (now : Int) :
    ∀ (listing : List (Option SweepPage)) (x : String),
      x ∈ runOnce parseTs now listing → x ∈ runOnceMarked parseTs now listing := by
  intro listing
  induction listing with
  | nil =>
    intro x hx
    simp only [runOnce] at hx
    cases hx
  | cons pg rest ih =>
    intro x hx
    cases pg with
    | none =>
      simp only [runOnce] at hx
      cases hx
    | some p =>
      simp only [runOnce] at hx
      simp only [runOnceMarked]
      apply List.mem_append.mpr
      rcases List.mem_append.mp hx with h | h
      · left
        split at h
        · cases h
        · split at h
          · exact h
          · cases h
      · exact Or.inr (ih x h)

theorem skipsObjects_spec (parseTs : String → Option Int) (k : String)
    (o : SweepObject) :
    ∀ l : List SweepObject, skipsObjects parseTs k l = true → o ∈ l → o.key = k →
      noDeadline parseTs o = true := by
  intro l
  induction l with
  | nil =>
    intro _ ho _
    cases ho
  | cons a rest ih =>
    intro h ho hk
    simp only [skipsObjects, Bool.and_eq_true] at h
    rcases List.mem_cons.mp ho with rfl | ho2
    · have h1 := h.1
      rw [hk] at h1
      simpa using h1
    · exact ih h.2 ho2 hk

theorem skipsKey_spec (parseTs : String → Option Int) (k : String) (p : SweepPage) :
    ∀ listing : List (Option SweepPage), skipsKey parseTs k listing = true →
      some p ∈ listing → skipsObjects parseTs k p.contents = true := by
  intro listing
  induction listing with
  | nil =>
    intro _ hp
    cases hp
  | cons pg rest ih =>
    intro h hp
    cases pg with
    | none =>
      simp only [skipsKey] at h
      rcases List.mem_cons.mp hp with heq | hp2
      · cases heq
      · exact ih h hp2
    | some q =>
      simp only [skipsKey, Bool.and_eq_true] at h
      rcases List.mem_cons.mp hp with heq | hp2
      · cases heq
        exact h.1
      · exact ih h.2 hp2

/-- Core of C6 for a single pass: a primary data key all of whose
occurrences lack a parsable deadline is never marked. -/
theorem not_marked_single_pass (parseTs : String → Option Int) (now : Int)
    (k : String) (listing : List (Option SweepPage))
    (hk : isDataKey k = true)
    (hskip : skipsKey parseTs k listing = true) :
    k ∉ runOnceMarked parseTs now listing := by
  intro hmem
  obtain ⟨p, hp, hpm⟩ := mem_runOnceMarked parseTs now listing k hmem
  obtain ⟨o, ho, hko⟩ := mem_marksOf parseTs now p.contents k hpm
  rcases mem_markObject parseTs now o k hko with ⟨hkey, hnd⟩ | heq
  · have hobj := skipsKey_spec parseTs k p listing hskip hp
    have := skipsObjects_spec parseTs k o p.contents hobj ho hkey.symm
    rw [this] at hnd
    cases hnd
  · have hsuf := hasSuffix_append o.key ".info"
    rw [← heq] at hsuf
    simp only [isDataKey, hsuf, Bool.not_true, Bool.false_and] at hk
    cases hk

/-- C6.  Across any number of sweep passes — each with its own captured
instant and freshly fetched listing — a primary data object whose every
listed occurrence either carries no `expires-at` tag or carries one whose
value does not parse is never marked and never deleted; such objects are
skipped and the pass continues. -/
theorem sweep_never_deletes_undeadlined (parseTs : String → Option Int) (k : String)
    (passes : List (Int × List (Option SweepPage)))
    (hk : isDataKey k = true)
    (hskip : ∀ pr ∈ passes, skipsKey parseTs k pr.2 = true) :
    ∀ pr ∈ passes, k ∉ runOnce parseTs pr.1 pr.2 ∧
      k ∉ runOnceMarked parseTs pr.1 pr.2 := by
  intro pr hpr
  have hm := not_marked_single_pass parseTs pr.1 k pr.2 hk (hskip pr hpr)
  exact ⟨fun hd => hm (runOnce_subset_marked parseTs pr.1 pr.2 k hd), hm⟩

/-- Witness for C6: a pass over an object with no expiry tag and a pass
over an object with an unparsable tag, neither of which marks or deletes
the object. -/
theorem sweep_never_deletes_undeadlined_witness :
    ("uploads/b" ∉ runOnce tsStub 1767225601 [some pageNoTagW] ∧
      "uploads/b" ∉ runOnceMarked tsStub 1767225601 [some pageNoTagW]) ∧
    ("uploads/b" ∉ runOnce tsStub 1767225601 [some pageBadTagW] ∧
      "uploads/b" ∉ runOnceMarked tsStub 1767225601 [some pageBadTagW]) :=
  ⟨sweep_never_deletes_undeadlined tsStub "uploads/b"
      [(1767225601, [some pageNoTagW]), (1767225601, [some pageBadTagW])]
      (by decide) (by decide) (1767225601, [some pageNoTagW]) (by decide),
   sweep_never_deletes_undeadlined tsStub "uploads/b"
      [(1767225601, [some pageNoTagW]), (1767225601, [some pageBadTagW])]
      (by decide) (by decide) (1767225601, [some pageBadTagW]) (by decide)⟩

/-- C3 counterexample: an object whose parsed deadline equals the instant
captured for the pass is NOT marked for deletion — `now.After(t)` is
strict — refuting the at-or-before reading at the boundary. -/
theorem sweep_deadline_at_now_not_marked :
    isDataKey "uploads/a" = true ∧
    tsStub "2026-01-01T00:00:00Z" = some 1767225600 ∧
    runOnceMarked tsStub 1767225600 [some pageExpW] = [] ∧
    runOnce tsStub 1767225600 [some pageExpW] = [] :=
  ⟨by decide, rfl, rfl, rfl⟩

/-- C3 (amended).  In one sweep pass, every primary data object appearing
on a reachable page (no earlier listing-page failure) whose `expires-at`
tag parses to a deadline strictly before the instant captured at the
start of the pass has both its own key and its side-channel `.info` key
marked for deletion.  A deadline exactly equal to the captured instant is
not marked in that pass (see the counterexample); it is swept by a later
pass once the instant has passed. -/
theorem sweep_marks_strictly_expired (parseTs : String → Option Int) (now : Int)
    (front : List (Option SweepPage)) (p : SweepPage)
    (rest : List (Option SweepPage)) (o : SweepObject)
    (tags : List (String × String)) (v : String) (t : Int)
    (hfront : ∀ pg ∈ front, pg ≠ none)
    (ho : o ∈ p.contents) (hdata : isDataKey o.key = true)
    (htags : o.tagging = some tags)
    (hv : findTag tags "expires-at" = some v)
    (ht : parseTs v = some t) (hlt : t < now) :
    o.key ∈ runOnceMarked parseTs now (front ++ some p :: rest) ∧
    o.key ++ ".info" ∈ runOnceMarked parseTs now (front ++ some p :: rest) := by
  have hmark : markObject parseTs now o = [o.key, o.key ++ ".info"] := by
    simp only [markObject, htags, hv, ht, hdata]
    simp [hlt]
  have hsub : ∀ l : List SweepObject, o ∈ l → ∀ x ∈ markObject parseTs now o,
      x ∈ marksOf parseTs now l := by
    intro l
    induction l with
    | nil =>
      intro ho2
      cases ho2
    | cons a rest2 ih =>
      intro ho2 x hx
      simp only [marksOf]
      apply List.mem_append.mpr
      rcases List.mem_cons.mp ho2 with rfl | ho3
      · exact Or.inl hx
      · exact Or.inr (ih ho3 x hx)
  have hrun : ∀ fr : List (Option SweepPage), (∀ pg ∈ fr, pg ≠ none) →
      ∀ x, x ∈ pageMarks parseTs now p →
      x ∈ runOnceMarked parseTs now (fr ++ some p :: rest) := by
    intro fr
    induction fr with
    | nil =>
      intro _ x hx
      simp only [List.nil_append, runOnceMarked]
      exact List.mem_append.mpr (Or.inl hx)
    | cons pg pgs ih =>
      intro hne x hx
      cases pg with
      | none => exact absurd rfl (hne none (List.mem_cons_self _ _))
      | some q =>
        simp only [List.cons_append, runOnceMarked]
        exact List.mem_append.mpr
          (Or.inr (ih (fun pg2 h2 => hne pg2 (List.mem_cons_of_mem _ h2)) x hx))
  refine ⟨hrun front hfront o.key ?_, hrun front hfront (o.key ++ ".info") ?_⟩
  · apply hsub p.contents ho
    rw [hmark]
    exact List.mem_cons_self _ _
  · apply hsub p.contents ho
    rw [hmark]
    simp

/-- Witness for the amended C3: an object one second past its deadline is
marked, together with its `.info` companion. -/
theorem sweep_marks_strictly_expired_witness :
    "uploads/a" ∈ runOnceMarked tsStub 1767225601 [some pageExpW] ∧
    "uploads/a" ++ ".info" ∈ runOnceMarked tsStub 1767225601 [some pageExpW] :=
  sweep_marks_strictly_expired tsStub 1767225601 [] pageExpW [] objExpW
    [("expires-at", "2026-01-01T00:00:00Z")] "2026-01-01T00:00:00Z" 1767225600
    (fun pg h => absurd h (List.not_mem_nil pg))
    (List.mem_cons_self _ _) (by decide) rfl rfl rfl (by decide)

/-- C7 counterexample: when the first listing page fails, a later page
holding an expired object is not processed — the pass returns instead of
skipping just the failed page — although the same page alone is processed
and its objects deleted. -/
theorem sweep_listing_failure_aborts :
    runOnce tsStub 1767225601 [none, some pageExpW] = [] ∧
    runOnce tsStub 1767225601 [some pageExpW] = ["uploads/a", "uploads/a.info"] :=
  ⟨rfl, rfl⟩

/-- C7 (amended).  A listing-page fetch failure is logged and aborts the
remainder of the pass — no later page is processed until the next
scheduled pass — whereas a failed delete batch skips only that page and
the pass continues with the remaining pages, and a failed tag read skips
only that object and the scan continues with the remaining objects. -/
theorem sweep_failure_unit_scope (parseTs : String → Option Int) (now : Int)
    (rest : List (Option SweepPage)) (p : SweepPage) (o : SweepObject)
    (hdel : p.deleteOk = false) (htag : o.tagging = none) :
    runOnce parseTs now (none :: rest) = [] ∧
    runOnce parseTs now (some p :: rest) = runOnce parseTs now rest ∧
    marksOf parseTs now (o :: p.contents) = marksOf parseTs now p.contents := by
  refine ⟨rfl, ?_, ?_⟩
  · simp only [runOnce, hdel]
    split
    · rfl
    · rfl
  · simp only [marksOf, markObject, htag]
    split
    · rfl
    · rfl

/-- Witness for the amended C7 at concrete inputs: a failed-delete page
contributes nothing but later pages still run; a tag-fetch failure skips
one object. -/
theorem sweep_failure_unit_scope_witness :
    runOnce tsStub 1767225601 [none, some pageExpW] = [] ∧
    runOnce tsStub 1767225601
        [some { contents := [objExpW], deleteOk := false }, some pageExpW]
      = runOnce tsStub 1767225601 [some pageExpW] ∧
    marksOf tsStub 1767225601
        ({ key := "uploads/c", tagging := none } :: pageExpW.contents)
      = marksOf tsStub 1767225601 pageExpW.contents :=
  sweep_failure_unit_scope tsStub 1767225601 [some pageExpW]
    { contents := [objExpW], deleteOk := false }
    { key := "uploads/c", tagging := none } rfl rfl

end Expiry

end Share
